import Mathlib

/-!
Verification of the AntennaPatternViewer pattern-processing pipeline and
multi-instance data model (`src/antenna_pattern_viewer/data_model.py`,
`pattern_instance.py`, `widgets/analysis_panel.py`,
`widgets/control_panel_widget.py`), shallowly embedded in Lean 4.

The external far-field pattern library is opaque to this repository: its
operations are modelled as an abstract interface (`PatternLib`), and, where a
concrete interpretation is needed, as a trace interpretation that records each
call (`TracePattern`).  Python dictionaries are embedded as insertion-ordered
association lists, Python sets as `Finset`, floats as exact rationals, and
raised exceptions as explicit error results paired with the state mutated so
far (Python mutates `self` in place before an exception propagates).
-/

namespace APV

/-! ## Python dict embedding (insertion-ordered association list) -/

/-- Python dict assignment `d[k] = v`: replaces the value in place if the key
is present (keeping its position), otherwise appends the binding. -/
def dictInsert {β : Type} (k : String) (v : β) : List (String × β) → List (String × β)
  | [] => [(k, v)]
  | (k', v') :: rest =>
    if k' = k then (k, v) :: rest else (k', v') :: dictInsert k v rest

/-- Python `d.get(k)` / `k in d` support. -/
def dictGet {β : Type} (k : String) : List (String × β) → Option β
  | [] => none
  | (k', v') :: rest => if k' = k then some v' else dictGet k rest

/-- Python `del d[k]`. -/
def dictDelete {β : Type} (k : String) (d : List (String × β)) : List (String × β) :=
  d.filter (fun kv => kv.1 ≠ k)

/-- Python `list(d.keys())` (insertion order). -/
def dictKeys {β : Type} (d : List (String × β)) : List String :=
  d.map Prod.fst

/-! ## Processing state and view parameters (`data_model.py`) -/

/-- `coordinate_format` values: `'central'` or `'sided'` (`None` is `Option.none`). -/
inductive CoordFormat | central | sided
deriving DecidableEq, Repr

/-- `amplitude_normalization` values: `'peak'`, `'boresight'`, `'mean'`. -/
inductive NormKind | peak | boresight | mean
deriving DecidableEq, Repr

/-- The `_processing_state` dict of `PatternDataModel.__init__`. -/
structure ProcessingState where
  phase_center_translation : Option (ℚ × ℚ × ℚ)
  mars_max_extent : Option ℚ
  coordinate_format : Option CoordFormat
  theta_origin_shift : Option ℚ
  phi_origin_shift : Option ℚ
  amplitude_normalization : Option NormKind
  boresight_normalization : Bool
deriving DecidableEq, Repr

/-- The all-`None` processing state installed by `__init__` and `set_pattern`. -/
def initProcessingState : ProcessingState :=
  { phase_center_translation := none
    mars_max_extent := none
    coordinate_format := none
    theta_origin_shift := none
    phi_origin_shift := none
    amplitude_normalization := none
    boresight_normalization := false }

/-- The `_view_params` dict of `PatternDataModel.__init__` (fixed key set). -/
structure ViewParams where
  selected_frequencies : List ℚ
  selected_phi : List ℚ
  selected_theta : List ℚ
  plot_type : String
  component : String
  value_type : String
  normalize : Bool
  unwrap_phase : Bool
  statistics_enabled : Bool
  statistic_type : String
deriving DecidableEq, Repr

/-- Default view parameters from `PatternDataModel.__init__`. -/
def initViewParams : ViewParams :=
  { selected_frequencies := []
    selected_phi := []
    selected_theta := []
    plot_type := "1d_cut"
    component := "e_co"
    value_type := "gain"
    normalize := false
    unwrap_phase := true
    statistics_enabled := false
    statistic_type := "mean" }

/-! ## The external pattern library interface (§6 of the spec; opaque to the repo)

Each operation may raise, which the embedding models as `Except E`.  The
repository calls these operations on a mutable pattern object; the embedding
threads the pattern value explicitly. -/

structure PatternLib (P : Type) (E : Type) where
  copy : P → P
  transform_coordinates : CoordFormat → P → Except E P
  normalize_amplitude : NormKind → P → Except E P
  normalize_at_boresight : P → Except E P
  shift_theta_origin : ℚ → P → Except E P
  shift_phi_origin : ℚ → P → Except E P
  translate : ℚ × ℚ × ℚ → P → Except E P
  apply_mars : ℚ → P → Except E P
  assign_polarization : String → P → Except E P

/-- `PatternDataModel.apply_processing`, lines 113–143: start from a copy of the
original and apply each enabled step in the source's order; any raise aborts
the chain. -/
def applyPipeline {P E : Type} (L : PatternLib P E) (st : ProcessingState) (orig : P) :
    Except E P := do
  let p0 := L.copy orig
  let p1 ← match st.coordinate_format with
    | some f => L.transform_coordinates f p0
    | none => pure p0
  let p2 ← match st.amplitude_normalization with
    | some k => L.normalize_amplitude k p1
    | none => pure p1
  let p3 ← if st.boresight_normalization then L.normalize_at_boresight p2 else pure p2
  let p4 ← match st.theta_origin_shift with
    | some d => L.shift_theta_origin d p3
    | none => pure p3
  let p5 ← match st.phi_origin_shift with
    | some d => L.shift_phi_origin d p4
    | none => pure p4
  let p6 ← match st.phase_center_translation with
    | some v => L.translate v p5
    | none => pure p5
  let p7 ← match st.mars_max_extent with
    | some m => L.apply_mars m p6
    | none => pure p6
  pure p7

/-! Spec-side description of the pipeline, for the refinement comparison of C2:
the canonical ordered list of enabled steps, folded over the pattern. -/

/-- One enabled processing step (spec §4.1 order). -/
inductive Step
  | coordinate_format (f : CoordFormat)
  | amplitude_normalization (k : NormKind)
  | boresight_normalization
  | theta_origin_shift (d : ℚ)
  | phi_origin_shift (d : ℚ)
  | phase_center_translation (v : ℚ × ℚ × ℚ)
  | mars_max_extent (m : ℚ)
deriving DecidableEq, Repr

/-- Spec wording: the fixed canonical order of enabled steps —
coordinate_format, amplitude_normalization, boresight_normalization,
theta_origin_shift, phi_origin_shift, phase_center_translation,
mars_max_extent; an unset slot contributes nothing. -/
def enabledSteps (st : ProcessingState) : List Step :=
  (st.coordinate_format.map Step.coordinate_format).toList ++
  (st.amplitude_normalization.map Step.amplitude_normalization).toList ++
  (if st.boresight_normalization then [Step.boresight_normalization] else []) ++
  (st.theta_origin_shift.map Step.theta_origin_shift).toList ++
  (st.phi_origin_shift.map Step.phi_origin_shift).toList ++
  (st.phase_center_translation.map Step.phase_center_translation).toList ++
  (st.mars_max_extent.map Step.mars_max_extent).toList

/-- Interpretation of one step through the external library. -/
def runStep {P E : Type} (L : PatternLib P E) : Step → P → Except E P
  | .coordinate_format f, p => L.transform_coordinates f p
  | .amplitude_normalization k, p => L.normalize_amplitude k p
  | .boresight_normalization, p => L.normalize_at_boresight p
  | .theta_origin_shift d, p => L.shift_theta_origin d p
  | .phi_origin_shift d, p => L.shift_phi_origin d p
  | .phase_center_translation v, p => L.translate v p
  | .mars_max_extent m, p => L.apply_mars m p

/-! ## Pattern instances and the data model state (`pattern_instance.py`, `data_model.py`) -/

/-- `PatternInstance` (`pattern_instance.py`).  The saved `view_params` dict is
either `{}` (never saved, falsy in Python — `Option.none` here) or a full copy
of the session's view-parameter dict.  Fields unused by any data-model
operation (`processing_history`, `load_timestamp`, `notes`) are omitted. -/
structure Instance (P : Type) where
  instance_id : String
  pattern : Option P
  source_file : Option String
  display_name : String
  view_params : Option ViewParams
deriving DecidableEq, Repr

/-- The Qt signals `PatternDataModel` emits, recorded as an event trace. -/
inductive Sig
  | pattern_loaded
  | pattern_modified
  | view_parameters_changed
  | processing_applied (kind : String)
  | instances_changed
  | active_instance_changed
  | comparison_set_changed
deriving DecidableEq, Repr

/-- The mutable state of `PatternDataModel`, plus the trace of emitted signals. -/
structure DataModel (P : Type) where
  pattern : Option P
  original_pattern : Option P
  file_path : Option String
  processing_state : ProcessingState
  view_params : ViewParams
  instances : List (String × Instance P)
  active_instance_id : Option String
  comparison_instance_ids : List String
  emitted : List Sig
deriving DecidableEq

/-- `PatternDataModel.__init__`. -/
def initModel (P : Type) : DataModel P :=
  { pattern := none
    original_pattern := none
    file_path := none
    processing_state := initProcessingState
    view_params := initViewParams
    instances := []
    active_instance_id := none
    comparison_instance_ids := []
    emitted := [] }

/-- Python truthiness of `self._active_instance_id` (an `Optional[str]`):
`None` and the empty string are falsy. -/
def strOptTruthy : Option String → Bool
  | none => false
  | some s => s ≠ ""

/-- `PatternDataModel.set_pattern` (lines 74–103): installs the pattern as both
original and current, resets the processing state, clears the selection lists
when the pattern is not `None`, and emits `pattern_loaded`. -/
def set_pattern {P : Type} (p : Option P) (fp : Option String) (s : DataModel P) :
    DataModel P :=
  { s with
    original_pattern := p
    pattern := p
    file_path := fp
    processing_state := initProcessingState
    view_params :=
      if p.isSome then
        { s.view_params with selected_frequencies := [], selected_phi := [], selected_theta := [] }
      else s.view_params
    emitted := s.emitted ++ [Sig.pattern_loaded] }

/-- `PatternDataModel.apply_processing` (lines 105–148) at the session level:
returns the updated state together with the raised exception, if any.  On a
raise, the local `processed` value is discarded: `self._pattern` is assigned
and `pattern_modified` emitted only after every step succeeded. -/
def apply_processing {P E : Type} (L : PatternLib P E) (s : DataModel P) :
    DataModel P × Option E :=
  match s.original_pattern with
  | none => (s, none)
  | some orig =>
    match applyPipeline L s.processing_state orig with
    | .ok processed =>
      ({ s with pattern := some processed, emitted := s.emitted ++ [Sig.pattern_modified] }, none)
    | .error e => (s, some e)

/-- One call to a `set_*` processing setter of `PatternDataModel`
(lines 150–181 and 391–433). -/
inductive ProcCall
  | set_phase_center_translation (v : Option (ℚ × ℚ × ℚ))
  | set_mars (m : Option ℚ)
  | set_coordinate_format (f : Option CoordFormat)
  | set_theta_origin_shift (d : Option ℚ)
  | set_phi_origin_shift (d : Option ℚ)
  | set_amplitude_normalization (k : Option NormKind)
  | set_boresight_normalization (b : Bool)
deriving DecidableEq, Repr

/-- The slot update a given setter performs on `_processing_state`. -/
def ProcCall.updateState : ProcCall → ProcessingState → ProcessingState
  | .set_phase_center_translation v, st => { st with phase_center_translation := v }
  | .set_mars m, st => { st with mars_max_extent := m }
  | .set_coordinate_format f, st => { st with coordinate_format := f }
  | .set_theta_origin_shift d, st => { st with theta_origin_shift := d }
  | .set_phi_origin_shift d, st => { st with phi_origin_shift := d }
  | .set_amplitude_normalization k, st => { st with amplitude_normalization := k }
  | .set_boresight_normalization b, st => { st with boresight_normalization := b }

/-- The `processing_applied` signal payload each setter emits on success. -/
def ProcCall.kind : ProcCall → String
  | .set_phase_center_translation _ => "phase_center_translation"
  | .set_mars _ => "mars"
  | .set_coordinate_format _ => "coordinate_format"
  | .set_theta_origin_shift _ => "theta_origin_shift"
  | .set_phi_origin_shift _ => "phi_origin_shift"
  | .set_amplitude_normalization _ => "amplitude_normalization"
  | .set_boresight_normalization _ => "boresight_normalization"

/-- A `set_*` setter: update the slot, call `apply_processing`, and emit
`processing_applied` — unless `apply_processing` raised, in which case the
exception propagates before the emit. -/
def runProcCall {P E : Type} (L : PatternLib P E) (c : ProcCall) (s : DataModel P) :
    DataModel P × Option E :=
  let s1 := { s with processing_state := c.updateState s.processing_state }
  match apply_processing L s1 with
  | (s2, none) => ({ s2 with emitted := s2.emitted ++ [Sig.processing_applied c.kind] }, none)
  | (s2, some e) => (s2, some e)

/-! ## Multi-instance registry operations (`data_model.py` lines 240–331) -/

/-- `PatternDataModel.set_active_instance` (lines 280–303).  The `Bool` result
records whether the `self._instances[instance_id]` lookup raised `KeyError`;
note the Python method saves the outgoing view parameters and assigns
`self._active_instance_id = instance_id` *before* that lookup, so those
mutations survive the raise. -/
def set_active_instance {P : Type} (instance_id : String) (s : DataModel P) :
    DataModel P × Bool :=
  -- Save current view params to old active instance
  let s1 :=
    if strOptTruthy s.active_instance_id then
      match s.active_instance_id with
      | some old =>
        match dictGet old s.instances with
        | some oldInst =>
          { s with instances :=
              dictInsert old { oldInst with view_params := some s.view_params } s.instances }
        | none => s
      | none => s
    else s
  -- Set new active
  let s2 := { s1 with active_instance_id := some instance_id }
  match dictGet instance_id s2.instances with
  | none => (s2, true)  -- KeyError
  | some inst =>
    -- Restore view params from instance
    let s3 :=
      match inst.view_params with
      | some saved =>
        { s2 with view_params := saved, emitted := s2.emitted ++ [Sig.view_parameters_changed] }
      | none => s2
    -- Update pattern
    let s4 := set_pattern inst.pattern inst.source_file s3
    ({ s4 with emitted := s4.emitted ++ [Sig.active_instance_changed, Sig.pattern_loaded] },
      false)

/-- `PatternDataModel.add_instance` (lines 240–247). -/
def add_instance {P : Type} (inst : Instance P) (s : DataModel P) : DataModel P × Bool :=
  let s1 := { s with
    instances := dictInsert inst.instance_id inst s.instances
    emitted := s.emitted ++ [Sig.instances_changed] }
  if s1.instances.length = 1 then set_active_instance inst.instance_id s1 else (s1, false)

/-- `PatternDataModel.remove_instance` (lines 249–270).  `remaining` is read
from `self._instances` *before* the `del`, so it still contains the id being
removed. -/
def remove_instance {P : Type} (instance_id : String) (s : DataModel P) :
    DataModel P × Bool :=
  match dictGet instance_id s.instances with
  | none => (s, false)
  | some _ =>
    -- Remove from comparison set if present
    let s1 := { s with comparison_instance_ids :=
      s.comparison_instance_ids.filter (fun i => i ≠ instance_id) }
    -- Clear active if this was active
    let step2 : DataModel P × Bool :=
      if s1.active_instance_id = some instance_id then
        let s2 := { s1 with active_instance_id := none }
        let remaining := dictKeys s2.instances
        if remaining ≠ [] then
          let new_active :=
            if remaining.length > 1 then (remaining.filter (fun k => k ≠ instance_id)).headD ""
            else remaining.headD ""
          set_active_instance new_active s2
        else
          ({ s2 with emitted := s2.emitted ++ [Sig.active_instance_changed, Sig.pattern_loaded] },
            false)
      else (s1, false)
    match step2 with
    | (s3, true) => (s3, true)  -- a raise inside set_active_instance would skip the del
    | (s3, false) =>
      ({ s3 with
          instances := dictDelete instance_id s3.instances
          emitted := s3.emitted ++ [Sig.instances_changed] }, false)

/-- `PatternDataModel.get_instance`. -/
def get_instance {P : Type} (instance_id : String) (s : DataModel P) : Option (Instance P) :=
  dictGet instance_id s.instances

/-- `PatternDataModel.get_active_instance`. -/
def get_active_instance {P : Type} (s : DataModel P) : Option (Instance P) :=
  if strOptTruthy s.active_instance_id then
    match s.active_instance_id with
    | some iid => dictGet iid s.instances
    | none => none
  else none

/-- `PatternDataModel.add_to_comparison` (lines 317–321). -/
def add_to_comparison {P : Type} (instance_id : String) (s : DataModel P) : DataModel P :=
  if (dictGet instance_id s.instances).isSome then
    { s with
      comparison_instance_ids :=
        if instance_id ∈ s.comparison_instance_ids then s.comparison_instance_ids
        else s.comparison_instance_ids ++ [instance_id]
      emitted := s.emitted ++ [Sig.comparison_set_changed] }
  else s

/-- `PatternDataModel.remove_from_comparison` (lines 323–326). -/
def remove_from_comparison {P : Type} (instance_id : String) (s : DataModel P) : DataModel P :=
  { s with
    comparison_instance_ids := s.comparison_instance_ids.filter (fun i => i ≠ instance_id)
    emitted := s.emitted ++ [Sig.comparison_set_changed] }

/-- `PatternDataModel.get_comparison_instances` (lines 328–331): set iteration
order is unspecified in Python; the embedding uses the membership list's
order, on which no claim depends. -/
def get_comparison_instances {P : Type} (s : DataModel P) : List (Instance P) :=
  s.comparison_instance_ids.filterMap (fun iid => dictGet iid s.instances)

/-- One registry call, for reasoning about arbitrary call sequences (claim C1). -/
inductive RegOp (P : Type)
  | add (inst : Instance P)
  | remove (id : String)
  | setActive (id : String)
  | addComp (id : String)
  | removeComp (id : String)

/-- Run one registry call, keeping the state a raising call left behind. -/
def runRegOp {P : Type} : RegOp P → DataModel P → DataModel P
  | .add inst, s => (add_instance inst s).1
  | .remove id, s => (remove_instance id s).1
  | .setActive id, s => (set_active_instance id s).1
  | .addComp id, s => add_to_comparison id s
  | .removeComp id, s => remove_from_comparison id s

/-- Run a sequence of registry calls from a starting state. -/
def runRegOps {P : Type} (ops : List (RegOp P)) (s : DataModel P) : DataModel P :=
  ops.foldl (fun st op => runRegOp op st) s

/-! ## Comparison compatibility (`data_model.py` lines 333–379) -/

/-- Insertion into a sorted list (ascending under `le`). -/
def insertSortedBy {α : Type} (le : α → α → Bool) (x : α) : List α → List α
  | [] => [x]
  | y :: ys => if le x y then x :: y :: ys else y :: insertSortedBy le x ys

/-- Python `sorted(...)`, as a structurally recursive insertion sort. -/
def sortBy {α : Type} (le : α → α → Bool) (l : List α) : List α :=
  l.foldr (insertSortedBy le) []

/-- Set intersection on duplicate-free element lists. -/
def interL {α : Type} [DecidableEq α] (l1 l2 : List α) : List α :=
  l1.filter (fun x => x ∈ l2)

/-- Result dict of `get_comparison_compatibility`. -/
structure CompatResult where
  compatible : Bool
  common_frequencies : List ℚ
  common_phi : List ℚ
  num_comparison : ℕ
deriving DecidableEq, Repr

/-- `PatternDataModel.get_comparison_compatibility`.  The pattern's
`frequencies` and `phi_angles` attributes are read through the accessor
parameters `freqs`/`phis`; a record whose `pattern` is `None` would raise an
`AttributeError` in Python, modelled as `Option.none`. -/
def get_comparison_compatibility {P : Type} (freqs phis : P → List ℚ) (s : DataModel P) :
    Option CompatResult :=
  let active := get_active_instance s
  let comparison := get_comparison_instances s
  if active.isNone || comparison.isEmpty then
    some { compatible := false, common_frequencies := [], common_phi := [],
           num_comparison := comparison.length }
  else
    match active with
    | none => none
    | some a =>
      match (a.pattern :: comparison.map (fun c => c.pattern)).mapM id with
      | none => none
      | some [] => none
      | some (p0 :: rest) =>
        let all_patterns := p0 :: rest
        let common_freqs :=
          sortBy (fun a b => decide (a ≤ b))
            ((rest.map (fun p => (freqs p).dedup)).foldl interL (freqs p0).dedup)
        let common_phi :=
          sortBy (fun a b => decide (a ≤ b))
            ((rest.map (fun p => (phis p).dedup)).foldl interL (phis p0).dedup)
        let compatible :=
          decide (common_freqs.length = (freqs p0).length) &&
          decide (common_phi.length = (phis p0).length) &&
          all_patterns.all (fun p => decide (common_freqs.length = (freqs p).length)) &&
          all_patterns.all (fun p => decide (common_phi.length = (phis p).length))
        some { compatible := compatible, common_frequencies := common_freqs,
               common_phi := common_phi, num_comparison := comparison.length }

/-! ## Trace interpretation of the external library -/

/-- One recorded call into the external pattern library. -/
inductive PatOp
  | transform_coordinates (f : CoordFormat)
  | normalize_amplitude (k : NormKind)
  | normalize_at_boresight
  | shift_theta_origin (d : ℚ)
  | shift_phi_origin (d : ℚ)
  | translate (v : ℚ × ℚ × ℚ)
  | apply_mars (m : ℚ)
  | assign_polarization (b : String)
deriving DecidableEq, Repr

/-- A pattern value under the trace interpretation: its `polarization`
attribute plus the history of transform calls applied to it. -/
structure TracePattern where
  polarization : String
  ops : List PatOp
deriving DecidableEq, Repr

/-- Modelled from the spec: the external far-field pattern library is not part
of this repository (§1, §6 list only its interface).  Trace interpretation:
`copy` yields an equal value, each transform records its call, and
`assign_polarization` is the only operation that changes the pattern's
`polarization` attribute — per §4.3, a polarization basis change "is a
reinterpretation of existing field components, not a derivable transform chain
step", while the §4.1 pipeline transforms reparameterize or rescale the same
field. -/
def TraceLib : PatternLib TracePattern Empty where
  copy := id
  transform_coordinates f p := .ok { p with ops := p.ops ++ [.transform_coordinates f] }
  normalize_amplitude k p := .ok { p with ops := p.ops ++ [.normalize_amplitude k] }
  normalize_at_boresight p := .ok { p with ops := p.ops ++ [.normalize_at_boresight] }
  shift_theta_origin d p := .ok { p with ops := p.ops ++ [.shift_theta_origin d] }
  shift_phi_origin d p := .ok { p with ops := p.ops ++ [.shift_phi_origin d] }
  translate v p := .ok { p with ops := p.ops ++ [.translate v] }
  apply_mars m p := .ok { p with ops := p.ops ++ [.apply_mars m] }
  assign_polarization b p := .ok { polarization := b, ops := p.ops ++ [.assign_polarization b] }

/-- `ControlPanelWidget.on_polarization_changed`
(`widgets/control_panel_widget.py` lines 173–198): copies the current pattern,
assigns the new polarization, installs the copy as the session's current
pattern, and emits; the processing state is not touched.  The surrounding
`except` handler swallows any raise after printing, leaving the state as it
was. -/
def on_polarization_changed {P E : Type} (L : PatternLib P E) (polOf : P → String)
    (new_polarization : String) (s : DataModel P) : DataModel P :=
  match s.pattern with
  | none => s
  | some pat =>
    if new_polarization = polOf pat then s
    else
      match L.assign_polarization new_polarization (L.copy pat) with
      | .ok p =>
        { s with
          pattern := some p
          emitted := s.emitted ++
            [Sig.pattern_modified, Sig.processing_applied "polarization_conversion",
             Sig.view_parameters_changed] }
      | .error _ => s

/-! ## Near-field evaluation grids (`widgets/analysis_panel.py` lines 401–470) -/

/-- `numpy.linspace(a, b, n)` with the default inclusive endpoint. -/
def linspace (a b : ℚ) (n : ℕ) : List ℚ :=
  if n = 0 then []
  else if n = 1 then [a]
  else (List.range n).map (fun (i : ℕ) => a + (b - a) * (i : ℚ) / ((n : ℚ) - 1))

/-- `numpy.meshgrid(xs, ys, indexing='ij')`: first component varies along the
first axis, second along the second axis; both results have shape
`(xs.length, ys.length)`. -/
def meshgrid_ij (xs ys : List ℚ) : List (List ℚ) × List (List ℚ) :=
  (xs.map (fun x => ys.map (fun _ => x)), xs.map (fun _ => ys))

/-- `numpy.full_like(m, v)`. -/
def full_like (m : List (List ℚ)) (v : ℚ) : List (List ℚ) :=
  m.map (fun r => r.map (fun _ => v))

/-- `ndarray.ravel()` of a 2D array (row-major). -/
def ravel {α : Type} (m : List (List α)) : List α := m.flatten

/-- `ndarray.reshape(n, m)` of a flat array (row-major). -/
def reshape {α : Type} : List α → ℕ → ℕ → List (List α)
  | _, 0, _ => []
  | flat, n + 1, m => flat.take m :: reshape (flat.drop m) n m

/-- The spherical-surface sampling grid `on_calculate_nearfield` builds
(lines 401–416): degree axes, radian axes (`np.radians` scales by a constant,
kept abstract as `degToRad`), the `'ij'` meshgrid, and the constant radius
array. -/
structure SphericalNFGrid where
  theta_deg : List ℚ
  phi_deg : List ℚ
  theta_rad : List ℚ
  phi_rad : List ℚ
  THETA : List (List ℚ)
  PHI : List (List ℚ)
  R : List (List ℚ)
deriving DecidableEq, Repr

def build_spherical_grid (radius : ℚ) (theta_points phi_points : ℕ) (degToRad : ℚ) :
    SphericalNFGrid :=
  let theta_deg := linspace 0 180 theta_points
  let phi_deg := linspace 0 360 phi_points
  let theta_rad := theta_deg.map (· * degToRad)
  let phi_rad := phi_deg.map (· * degToRad)
  let mg := meshgrid_ij theta_rad phi_rad
  { theta_deg := theta_deg, phi_deg := phi_deg
    theta_rad := theta_rad, phi_rad := phi_rad
    THETA := mg.1, PHI := mg.2, R := full_like mg.1 radius }

/-- The planar-surface sampling grid of lines 437–447. -/
structure PlanarNFGrid where
  x : List ℚ
  y : List ℚ
  X : List (List ℚ)
  Y : List (List ℚ)
  Z : List (List ℚ)
deriving DecidableEq, Repr

def build_planar_grid (x_extent y_extent z_distance : ℚ) (x_points y_points : ℕ) :
    PlanarNFGrid :=
  let x := linspace (-x_extent) x_extent x_points
  let y := linspace (-y_extent) y_extent y_points
  let mg := meshgrid_ij x y
  { x := x, y := y, X := mg.1, Y := mg.2, Z := full_like mg.1 z_distance }

/-! ## SWE power analysis (`widgets/analysis_panel.py` lines 511–558) -/

/-- A complex coefficient with exact components; `abs(q)**2` is `normSq`. -/
structure Cplx where
  re : ℚ
  im : ℚ
deriving DecidableEq, Repr

def Cplx.normSq (z : Cplx) : ℚ := z.re ^ 2 + z.im ^ 2

/-- `d.get((n, m), 0)` on a coefficient dict. -/
def lookupC (k : ℤ × ℤ) (l : List ((ℤ × ℤ) × Cplx)) : Cplx :=
  ((l.find? (fun kv => decide (kv.1 = k))).map Prod.snd).getD ⟨0, 0⟩

/-- The SWE coefficient maps `Q1_coeffs` / `Q2_coeffs` keyed by `(n, m)`. -/
structure SWEc where
  Q1_coeffs : List ((ℤ × ℤ) × Cplx)
  Q2_coeffs : List ((ℤ × ℤ) × Cplx)
deriving DecidableEq

/-- `all_modes = set(Q1.keys()) | set(Q2.keys())`, as a duplicate-free list. -/
def allModes (swe : SWEc) : List (ℤ × ℤ) :=
  (swe.Q1_coeffs.map Prod.fst ++ swe.Q2_coeffs.map Prod.fst).dedup

/-- `mode_power = abs(q1)**2 + abs(q2)**2`. -/
def modePower (swe : SWEc) (nm : ℤ × ℤ) : ℚ :=
  (lookupC nm swe.Q1_coeffs).normSq + (lookupC nm swe.Q2_coeffs).normSq

/-- The `power_per_n` dict of `_compute_power_distributions`, as its value at a
degree `n` (the accumulation over `all_modes` is order-independent). -/
def power_per_n (swe : SWEc) (n : ℤ) : ℚ :=
  (((allModes swe).filter (fun nm => nm.1 = n)).map (modePower swe)).sum

/-- The keys of the `power_per_n` dict. -/
def nSupport (swe : SWEc) : List ℤ := ((allModes swe).map Prod.fst).dedup

/-- The `power_per_m` dict (keyed by `abs(m)`), as its value at `k`. -/
def power_per_absm (swe : SWEc) (k : ℤ) : ℚ :=
  (((allModes swe).filter (fun nm => |nm.2| = k)).map (modePower swe)).sum

/-- The keys of the `power_per_m` dict. -/
def mSupport (swe : SWEc) : List ℤ := ((allModes swe).map (fun nm => |nm.2|)).dedup

/-- `n_values = sorted(power_per_n.keys())` in `_plot_power_distributions`. -/
def nValues (swe : SWEc) : List ℤ := sortBy (fun a b => decide (a ≤ b)) (nSupport swe)

/-- `powers_n = np.array([power_per_n[n] for n in n_values])`. -/
def powersN (swe : SWEc) : List ℚ := (nValues swe).map (power_per_n swe)

/-- `total_power = powers_n.sum()`. -/
def total_power (swe : SWEc) : ℚ := (powersN swe).sum

/-- `numpy.cumsum`. -/
def cumsum (l : List ℚ) : List ℚ := (l.scanl (· + ·) 0).tail

/-- The cumulative-power-percentage series of `_plot_power_distributions`
(lines 534–538): guarded against a zero total. -/
def cumulativeSeries (swe : SWEc) : List ℚ :=
  if total_power swe > 0 then
    (cumsum (powersN swe)).map (fun c => c / total_power swe * 100)
  else
    List.replicate (powersN swe).length 0

/-! ## Concrete fixtures used by counterexamples and witnesses -/

/-- A freshly loaded pattern value under the trace interpretation. -/
def p0 : TracePattern := { polarization := "rhcp", ops := [] }

/-- A loaded instance with no saved view parameters. -/
def instA : Instance TracePattern :=
  { instance_id := "a", pattern := some p0, source_file := none, display_name := "A",
    view_params := none }

/-- A second loaded instance. -/
def instB : Instance TracePattern :=
  { instance_id := "b", pattern := some p0, source_file := none, display_name := "B",
    view_params := none }

/-- The registry state after `add_instance(A)` then `remove_instance("a")`
from a fresh model (claim C1's failing input). -/
def mC1 : DataModel TracePattern :=
  runRegOps [RegOp.add instA, RegOp.remove "a"] (initModel TracePattern)

/-- Session view parameters that differ from the defaults. -/
def vC3 : ViewParams := { initViewParams with component := "e_cx" }

/-- An instance with saved (default) view parameters. -/
def instA3 : Instance TracePattern :=
  { instance_id := "a", pattern := some p0, source_file := none, display_name := "A",
    view_params := some initViewParams }

/-- A model with one registered instance `"a"` (active) and modified session
view parameters (claim C3's concrete state). -/
def mC3 : DataModel TracePattern :=
  { initModel TracePattern with
    instances := [("a", instA3)]
    active_instance_id := some "a"
    pattern := some p0
    original_pattern := some p0
    view_params := vC3 }

/-- Session view parameters with a non-empty frequency/phi selection. -/
def vC5 : ViewParams :=
  { initViewParams with selected_frequencies := [1], selected_phi := [90], component := "e_cx" }

/-- A model with instances `"a"` (active) and `"b"`, where the user has
selected frequency 1 and phi 90 while `"a"` is active (claim C5's state). -/
def mC5 : DataModel TracePattern :=
  { initModel TracePattern with
    instances := [("a", instA), ("b", instB)]
    active_instance_id := some "a"
    pattern := some p0
    original_pattern := some p0
    view_params := vC5 }

/-- The model after switching active "a" → "b" → "a" from `mC5`. -/
def mC5round : DataModel TracePattern :=
  (set_active_instance "a" (set_active_instance "b" mC5).1).1

/-- A model with one registered, active instance holding `p0`, used by the
C2/C6/C10 concrete scenarios. -/
def mC6 : DataModel TracePattern :=
  { initModel TracePattern with
    instances := [("a", instA)]
    active_instance_id := some "a"
    pattern := some p0
    original_pattern := some p0 }

/-- The model after `set_theta_origin_shift(10)` on `mC6`. -/
def mC6after : DataModel TracePattern :=
  (runProcCall TraceLib (ProcCall.set_theta_origin_shift (some 10)) mC6).1

/-- A library instantiation whose `apply_mars` always raises (claim C4's
concrete failing external operation); every other operation traces. -/
def FailLib : PatternLib TracePattern Unit where
  copy := id
  transform_coordinates f p := .ok { p with ops := p.ops ++ [.transform_coordinates f] }
  normalize_amplitude k p := .ok { p with ops := p.ops ++ [.normalize_amplitude k] }
  normalize_at_boresight p := .ok { p with ops := p.ops ++ [.normalize_at_boresight] }
  shift_theta_origin d p := .ok { p with ops := p.ops ++ [.shift_theta_origin d] }
  shift_phi_origin d p := .ok { p with ops := p.ops ++ [.shift_phi_origin d] }
  translate v p := .ok { p with ops := p.ops ++ [.translate v] }
  apply_mars _ _ := .error ()
  assign_polarization b p := .ok { polarization := b, ops := p.ops ++ [.assign_polarization b] }

/-- A pattern carrying concrete frequency and phi-angle samplings, for the
compatibility fixtures: `frequencies` is the first component, `phi_angles` the
second. -/
abbrev FreqPhiPattern : Type := List ℚ × List ℚ

def fpFreqs (p : FreqPhiPattern) : List ℚ := p.1

def fpPhis (p : FreqPhiPattern) : List ℚ := p.2

/-- Active instance for the C7 witness: frequencies `[1, 2]`, phi `[0, 90]`. -/
def instC7a : Instance FreqPhiPattern :=
  { instance_id := "a", pattern := some ([1, 2], [0, 90]), source_file := none,
    display_name := "A", view_params := none }

/-- Comparison instance for the C7 witness with the identical sampling. -/
def instC7b : Instance FreqPhiPattern :=
  { instance_id := "b", pattern := some ([1, 2], [0, 90]), source_file := none,
    display_name := "B", view_params := none }

/-- A model with active `"a"` and comparison set `{"b"}` (claim C7's state). -/
def mC7 : DataModel FreqPhiPattern :=
  { initModel FreqPhiPattern with
    instances := [("a", instC7a), ("b", instC7b)]
    active_instance_id := some "a"
    comparison_instance_ids := ["b"] }

/-- An empty coefficient set (claim C9's degenerate input). -/
def sweEmpty : SWEc := { Q1_coeffs := [], Q2_coeffs := [] }

/-! ## Helper lemmas -/

theorem except_bind_pure {E α : Type} (e : Except E α) : e >>= pure = e := by
  cases e <;> rfl

/-- The code's sequential pipeline equals the fold of the canonical ordered
list of enabled steps over a fresh copy of the original. -/
theorem applyPipeline_eq_foldSteps {P E : Type} (L : PatternLib P E)
    (st : ProcessingState) (orig : P) :
    applyPipeline L st orig =
      (enabledSteps st).foldlM (fun p step => runStep L step p) (L.copy orig) := by
  obtain ⟨pc, mm, cf, ts, ps, an, bn⟩ := st
  cases cf <;> cases an <;> cases bn <;> cases ts <;> cases ps <;> cases pc <;> cases mm <;>
    rfl

/-- Every pipeline step under the trace interpretation succeeds and preserves
the polarization attribute. -/
theorem runStep_trace_pol (step : Step) (p : TracePattern) :
    ∃ q, runStep TraceLib step p = .ok q ∧ q.polarization = p.polarization := by
  cases step <;> exact ⟨_, rfl, rfl⟩

theorem foldSteps_trace_pol (steps : List Step) (p q : TracePattern)
    (h : steps.foldlM (fun a step => runStep TraceLib step a) p = .ok q) :
    q.polarization = p.polarization := by
  induction steps generalizing p with
  | nil => exact congrArg TracePattern.polarization (Except.ok.inj h).symm
  | cons s rest ih =>
    obtain ⟨r, hr, hpol⟩ := runStep_trace_pol s p
    rw [List.foldlM_cons, hr] at h
    exact (ih r h).trans hpol

/-- The trace pipeline always succeeds, with the original's polarization. -/
theorem applyPipeline_trace_pol (st : ProcessingState) (p : TracePattern) :
    ∃ q, applyPipeline TraceLib st p = .ok q ∧ q.polarization = p.polarization := by
  have heq := applyPipeline_eq_foldSteps TraceLib st p
  cases hres : applyPipeline TraceLib st p with
  | error e => exact e.elim
  | ok q =>
    refine ⟨q, rfl, ?_⟩
    rw [hres] at heq
    exact foldSteps_trace_pol _ _ _ heq.symm

/-! ## Claim C2 -/

/-- C2: `apply_processing` always rebuilds the current pattern from a fresh
copy of the original pattern, applying exactly the enabled steps in the fixed
canonical order — coordinate_format, amplitude_normalization,
boresight_normalization, theta_origin_shift, phi_origin_shift,
phase_center_translation, mars_max_extent — skipping unset slots (the code's
sequential pipeline equals the fold of the canonical enabled-step list over a
fresh copy of the original), and the result is never computed by compounding
onto a previously processed pattern: replacing the session's current pattern
by anything changes neither the outcome nor the new current pattern. -/
theorem C2_apply_processing_canonical_replay {P E : Type} (L : PatternLib P E)
    (s : DataModel P) (orig : P) (h : s.original_pattern = some orig) :
    applyPipeline L s.processing_state orig =
      (enabledSteps s.processing_state).foldlM (fun p step => runStep L step p) (L.copy orig) ∧
    ((apply_processing L s).2 = none →
      (apply_processing L s).1.pattern = (applyPipeline L s.processing_state orig).toOption) ∧
    (∀ q : Option P,
      (apply_processing L { s with pattern := q }).2 = (apply_processing L s).2 ∧
      ((apply_processing L s).2 = none →
        (apply_processing L { s with pattern := q }).1.pattern =
          (apply_processing L s).1.pattern)) := by
  refine ⟨applyPipeline_eq_foldSteps L s.processing_state orig, ?_, ?_⟩
  · cases hres : applyPipeline L s.processing_state orig with
    | ok p => intro _; simp [apply_processing, h, hres, Except.toOption]
    | error e => intro hok; simp [apply_processing, h, hres] at hok
  · intro q
    cases hres : applyPipeline L s.processing_state orig with
    | ok p => constructor <;> simp [apply_processing, h, hres]
    | error e => constructor <;> simp [apply_processing, h, hres]

/-- Witness for C2 at the concrete model `mC6` under the trace library. -/
theorem C2_witness :
    mC6.original_pattern = some p0 ∧
    (apply_processing TraceLib mC6).1.pattern =
      (applyPipeline TraceLib mC6.processing_state p0).toOption :=
  ⟨rfl, (C2_apply_processing_canonical_replay TraceLib mC6 p0 rfl).2.1 rfl⟩

/-! ## Claim C4 -/

/-- C4: if any step's external operation raises during `apply_processing`, the
pipeline aborts and the error propagates to the caller of the `set_*`
operation, while the session's current pattern field keeps its last good value
and no `pattern_modified` (indeed no) notification is emitted for the failed
replay. -/
theorem C4_failed_replay_keeps_last_good_pattern {P E : Type} (L : PatternLib P E)
    (c : ProcCall) (s : DataModel P) (e : E)
    (h : (runProcCall L c s).2 = some e) :
    (runProcCall L c s).1.pattern = s.pattern ∧
    (runProcCall L c s).1.emitted = s.emitted := by
  unfold runProcCall apply_processing at h ⊢
  cases horig : s.original_pattern with
  | none => simp [horig] at h
  | some orig =>
    cases hres : applyPipeline L (c.updateState s.processing_state) orig with
    | ok p => simp [horig, hres] at h
    | error e' => simp [horig, hres]

/-- Witness for C4: `FailLib.apply_mars` raises, so `set_mars(1)` on `mC6`
propagates the error with the current pattern and emission trace unchanged. -/
theorem C4_witness :
    (runProcCall FailLib (ProcCall.set_mars (some 1)) mC6).2 = some () ∧
    ((runProcCall FailLib (ProcCall.set_mars (some 1)) mC6).1.pattern = mC6.pattern ∧
      (runProcCall FailLib (ProcCall.set_mars (some 1)) mC6).1.emitted = mC6.emitted) :=
  ⟨rfl, C4_failed_replay_keeps_last_good_pattern FailLib (ProcCall.set_mars (some 1)) mC6 () rfl⟩

/-! ## Dictionary lemmas -/

theorem dictGet_dictInsert_ne {β : Type} (k k' : String) (hne : k ≠ k') (v : β)
    (d : List (String × β)) : dictGet k' (dictInsert k v d) = dictGet k' d := by
  induction d with
  | nil => simp [dictInsert, dictGet, hne]
  | cons kv rest ih =>
    obtain ⟨a, b⟩ := kv
    by_cases hak : a = k
    · subst hak
      simp [dictInsert, dictGet, hne]
    · simp [dictInsert, dictGet, hak, ih]

theorem dictGet_dictInsert_self {β : Type} (k : String) (v : β) (d : List (String × β)) :
    dictGet k (dictInsert k v d) = some v := by
  induction d with
  | nil => simp [dictInsert, dictGet]
  | cons kv rest ih =>
    obtain ⟨a, b⟩ := kv
    by_cases hak : a = k
    · subst hak; simp [dictInsert, dictGet]
    · simp [dictInsert, dictGet, hak, ih]

theorem dictKeys_dictInsert_of_mem {β : Type} (k : String) (v : β) (d : List (String × β))
    (h : (dictGet k d).isSome) : dictKeys (dictInsert k v d) = dictKeys d := by
  induction d with
  | nil => simp [dictGet] at h
  | cons kv rest ih =>
    obtain ⟨a, b⟩ := kv
    by_cases hak : a = k
    · subst hak; simp [dictInsert, dictKeys]
    · simp [dictGet, hak] at h
      simp [dictInsert, dictKeys, hak] at ih ⊢
      exact ih h

/-! ## Claim C1 -/

/-- C1 (evaluation of the code at the failing input): after `add_instance(A)`
followed by `remove_instance("a")` from a fresh model, the instances map is
empty and the comparison set is empty, yet `active_instance_id` is still
`some "a"` — the removed id — violating the claimed invariant that `active_id`
is unset or a key of the instances map when the registry becomes empty. -/
theorem C1_remove_last_active_leaves_dangling_active_id :
    mC1.instances = [] ∧ mC1.comparison_instance_ids = [] ∧
    mC1.active_instance_id = some "a" := by
  refine ⟨?_, ?_, ?_⟩ <;> rfl

/-! ## Claim C6 -/

/-- C6 counterexample: after the `set_theta_origin_shift(10)` processing
operation on `mC6`, the active instance's record still holds the as-loaded
pattern `p0`, while the session's current pattern is the newly processed one —
so the record's `pattern` field does not hold the current processed pattern. -/
theorem C6_counterexample :
    (dictGet "a" mC6after.instances).map (fun i => i.pattern) = some (some p0) ∧
    mC6after.pattern ≠ some p0 := by
  exact ⟨rfl, by decide⟩

/-- C6 amended: a `set_*` processing operation replaces the session-level
current-pattern field with the newly processed pattern (rebuilt by the
pipeline), but it never touches the instances map — no PatternRecord's
`pattern` field is replaced. -/
theorem C6_setters_replace_session_pattern_not_record {P E : Type} (L : PatternLib P E)
    (c : ProcCall) (s : DataModel P) :
    (runProcCall L c s).1.instances = s.instances ∧
    ∀ orig, s.original_pattern = some orig → (runProcCall L c s).2 = none →
      (runProcCall L c s).1.pattern =
        (applyPipeline L (c.updateState s.processing_state) orig).toOption := by
  cases horig : s.original_pattern with
  | none =>
    constructor
    · simp [runProcCall, apply_processing, horig]
    · intro orig hco
      exact Option.noConfusion hco
  | some orig =>
    cases hres : applyPipeline L (c.updateState s.processing_state) orig with
    | ok p =>
      constructor
      · simp [runProcCall, apply_processing, horig, hres]
      · intro orig' hco hnone
        injection hco with he
        subst he
        simp [runProcCall, apply_processing, horig, hres, Except.toOption]
    | error e =>
      constructor
      · simp [runProcCall, apply_processing, horig, hres]
      · intro orig' hco hnone
        injection hco with he
        subst he
        simp [runProcCall, apply_processing, horig, hres] at hnone

/-- Witness for C6's amended statement at `mC6`. -/
theorem C6_witness :
    mC6.original_pattern = some p0 ∧
    (runProcCall TraceLib (ProcCall.set_theta_origin_shift (some 10)) mC6).1.instances
        = mC6.instances ∧
    (runProcCall TraceLib (ProcCall.set_theta_origin_shift (some 10)) mC6).1.pattern =
      (applyPipeline TraceLib
        ((ProcCall.set_theta_origin_shift (some 10)).updateState mC6.processing_state)
        p0).toOption :=
  ⟨rfl,
    (C6_setters_replace_session_pattern_not_record TraceLib
      (ProcCall.set_theta_origin_shift (some 10)) mC6).1,
    (C6_setters_replace_session_pattern_not_record TraceLib
      (ProcCall.set_theta_origin_shift (some 10)) mC6).2 p0 rfl rfl⟩

/-! ## Claim C10 -/

/-- C10: a polarization change replaces only the session's current pattern and
is recorded nowhere in the processing state, so any subsequent `set_*`
processing call — which replays all steps from the original pattern — silently
discards it: the resulting current pattern carries the original pattern's
polarization basis, and not the newly assigned one whenever that differs. -/
theorem C10_polarization_change_discarded_by_replay (s : DataModel TracePattern)
    (newPol : String) (orig : TracePattern) (h : s.original_pattern = some orig) :
    (on_polarization_changed TraceLib TracePattern.polarization newPol s).processing_state
        = s.processing_state ∧
    (on_polarization_changed TraceLib TracePattern.polarization newPol s).original_pattern
        = some orig ∧
    ∀ c : ProcCall,
      ((runProcCall TraceLib c
          (on_polarization_changed TraceLib TracePattern.polarization newPol s)).1.pattern.map
        TracePattern.polarization) = some orig.polarization ∧
      (newPol ≠ orig.polarization →
        ((runProcCall TraceLib c
            (on_polarization_changed TraceLib TracePattern.polarization newPol s)).1.pattern.map
          TracePattern.polarization) ≠ some newPol) := by
  have hps :
      (on_polarization_changed TraceLib TracePattern.polarization newPol s).processing_state
        = s.processing_state ∧
      (on_polarization_changed TraceLib TracePattern.polarization newPol s).original_pattern
        = s.original_pattern := by
    unfold on_polarization_changed
    cases s.pattern with
    | none => exact ⟨rfl, rfl⟩
    | some pat =>
      by_cases hp : newPol = TracePattern.polarization pat
      · simp [hp]
      · simp [hp, TraceLib]
  refine ⟨hps.1, hps.2.trans h, ?_⟩
  intro c
  obtain ⟨q, hq, hqpol⟩ := applyPipeline_trace_pol
    (c.updateState (on_polarization_changed TraceLib TracePattern.polarization newPol s).processing_state)
    orig
  have hpat :
      (runProcCall TraceLib c
        (on_polarization_changed TraceLib TracePattern.polarization newPol s)).1.pattern
      = some q := by
    unfold runProcCall apply_processing
    simp [hps.2.trans h, hq]
  rw [hpat]
  refine ⟨by simp [hqpol], ?_⟩
  intro hne hcontra
  simp [hqpol] at hcontra
  exact hne hcontra.symm

/-- Witness for C10: `mC6` holds `p0` (polarization `"rhcp"`); change the
polarization to `"lhcp"` and then toggle a processing option. -/
theorem C10_witness :
    mC6.original_pattern = some p0 ∧
    ((runProcCall TraceLib (ProcCall.set_boresight_normalization true)
        (on_polarization_changed TraceLib TracePattern.polarization "lhcp" mC6)).1.pattern.map
      TracePattern.polarization) = some p0.polarization :=
  ⟨rfl,
    ((C10_polarization_change_discarded_by_replay mC6 "lhcp" p0 rfl).2.2
      (ProcCall.set_boresight_normalization true)).1⟩

/-! ## Claim C3 -/

/-- C3 counterexample: calling `set_active_instance` with the unknown id
`"b"` on `mC3` signals not-found (`KeyError`), but does NOT leave the registry
state unchanged: the active id becomes `"b"` (no longer a key of the instances
map) and the outgoing record's saved view parameters are overwritten with the
session's current ones. -/
theorem C3_counterexample :
    (set_active_instance "b" mC3).2 = true ∧
    (set_active_instance "b" mC3).1.active_instance_id ≠ mC3.active_instance_id ∧
    (dictGet "a" (set_active_instance "b" mC3).1.instances).map (fun i => i.view_params)
      ≠ (dictGet "a" mC3.instances).map (fun i => i.view_params) := by
  refine ⟨rfl, by decide, by decide⟩

/-- C3 amended: `set_active_instance` with an id not in the instances map
signals a not-found condition (`KeyError`) and leaves the instances map's key
set, the comparison set, the session's current/original pattern, view
parameters and emitted signals unchanged — but it first persists the current
view parameters onto the previously active record and sets `active_id` to the
unknown id, so `active_id` is corrupted to a non-key. -/
theorem C3_set_active_unknown_id (P : Type) (s : DataModel P) (id : String)
    (h : dictGet id s.instances = none) :
    (set_active_instance id s).2 = true ∧
    dictKeys (set_active_instance id s).1.instances = dictKeys s.instances ∧
    (set_active_instance id s).1.comparison_instance_ids = s.comparison_instance_ids ∧
    (set_active_instance id s).1.active_instance_id = some id ∧
    (set_active_instance id s).1.pattern = s.pattern ∧
    (set_active_instance id s).1.original_pattern = s.original_pattern ∧
    (set_active_instance id s).1.view_params = s.view_params ∧
    (set_active_instance id s).1.emitted = s.emitted := by
  unfold set_active_instance
  by_cases ht : strOptTruthy s.active_instance_id
  · cases hact : s.active_instance_id with
    | none => rw [hact] at ht; simp [strOptTruthy] at ht
    | some old =>
      rw [hact] at ht
      cases hold : dictGet old s.instances with
      | none => simp [hact, ht, hold, h]
      | some oldInst =>
        have hne : old ≠ id := by
          intro he
          rw [he, h] at hold
          exact Option.noConfusion hold
        have hkey :
            dictGet id
              (dictInsert old { oldInst with view_params := some s.view_params } s.instances)
            = none := (dictGet_dictInsert_ne old id hne _ s.instances).trans h
        have hkeys :
            dictKeys
              (dictInsert old { oldInst with view_params := some s.view_params } s.instances)
            = dictKeys s.instances :=
          dictKeys_dictInsert_of_mem old _ s.instances (by rw [hold]; rfl)
        simp [hact, ht, hold, hkey, hkeys]
  · simp [ht, h]

/-- Witness for C3's amended statement: `"b"` is unknown to `mC3`. -/
theorem C3_witness :
    dictGet "b" mC3.instances = (none : Option (Instance TracePattern)) ∧
    (set_active_instance "b" mC3).2 = true ∧
    (set_active_instance "b" mC3).1.active_instance_id = some "b" ∧
    dictKeys (set_active_instance "b" mC3).1.instances = dictKeys mC3.instances :=
  ⟨rfl, (C3_set_active_unknown_id TracePattern mC3 "b" rfl).1,
    (C3_set_active_unknown_id TracePattern mC3 "b" rfl).2.2.2.1,
    (C3_set_active_unknown_id TracePattern mC3 "b" rfl).2.1⟩

/-! ## Claim C5 -/

/-- Characterization of `set_active_instance` when the current active id and
the target id both resolve, and differ: the outgoing record gets the session
view parameters, the incoming record's saved parameters are restored (or kept
if never saved), and `set_pattern` then clears the selection lists whenever
the incoming record holds a pattern. -/
theorem set_active_instance_found {P : Type} (s : DataModel P) (old id : String)
    (oldInst inst : Instance P)
    (hact : s.active_instance_id = some old) (holdNe : old ≠ "")
    (hold : dictGet old s.instances = some oldInst)
    (hne : old ≠ id)
    (hid : dictGet id s.instances = some inst) :
    set_active_instance id s =
      ({ pattern := inst.pattern
         original_pattern := inst.pattern
         file_path := inst.source_file
         processing_state := initProcessingState
         view_params :=
           if inst.pattern.isSome then
             { inst.view_params.getD s.view_params with
               selected_frequencies := [], selected_phi := [], selected_theta := [] }
           else inst.view_params.getD s.view_params
         instances :=
           dictInsert old { oldInst with view_params := some s.view_params } s.instances
         active_instance_id := some id
         comparison_instance_ids := s.comparison_instance_ids
         emitted := s.emitted ++
           (match inst.view_params with
            | some _ => [Sig.view_parameters_changed]
            | none => []) ++
           [Sig.pattern_loaded, Sig.active_instance_changed, Sig.pattern_loaded] },
        false) := by
  have ht : strOptTruthy s.active_instance_id = true := by
    rw [hact]; simp [strOptTruthy, holdNe]
  have hgid :
      dictGet id (dictInsert old { oldInst with view_params := some s.view_params } s.instances)
        = some inst :=
    (dictGet_dictInsert_ne old id hne _ s.instances).trans hid
  rw [hact] at ht
  unfold set_active_instance set_pattern
  cases hvp : inst.view_params <;> cases hip : inst.pattern <;>
    simp [hact, ht, hold, hgid, hvp, hip]

/-- C5 counterexample: in `mC5` the user selected frequency 1 while `"a"` was
active; after switching active "a" → "b" → "a", the restored selection list is
empty instead of `[1]` — the selected frequencies are NOT restored. -/
theorem C5_counterexample :
    mC5.view_params.selected_frequencies = [1] ∧
    mC5round.view_params.selected_frequencies ≠ mC5.view_params.selected_frequencies ∧
    mC5round.view_params.selected_frequencies = [] := by
  refine ⟨rfl, by decide, by decide⟩

/-- C5 amended: switching active A → B → A restores every view parameter of A
except the three selection lists (`selected_frequencies`, `selected_phi`,
`selected_theta`), which are reset to empty — activating an instance reloads
its pattern through `set_pattern`, which clears the selections whenever the
instance holds a pattern. -/
theorem C5_roundtrip_clears_selections {P : Type} (s : DataModel P) (aId bId : String)
    (a b : Instance P) (pa : P)
    (hact : s.active_instance_id = some aId)
    (haNe : aId ≠ "") (hbNe : bId ≠ "") (hab : aId ≠ bId)
    (ha : dictGet aId s.instances = some a)
    (hb : dictGet bId s.instances = some b)
    (hpa : a.pattern = some pa) :
    (set_active_instance bId s).2 = false ∧
    (set_active_instance aId (set_active_instance bId s).1).2 = false ∧
    (set_active_instance aId (set_active_instance bId s).1).1.view_params =
      { s.view_params with
        selected_frequencies := [], selected_phi := [], selected_theta := [] } := by
  have ha' :
      dictGet aId (dictInsert aId { a with view_params := some s.view_params } s.instances)
        = some { a with view_params := some s.view_params } :=
    dictGet_dictInsert_self aId _ s.instances
  have hb' :
      dictGet bId (dictInsert aId { a with view_params := some s.view_params } s.instances)
        = some b :=
    (dictGet_dictInsert_ne aId bId hab _ s.instances).trans hb
  rw [set_active_instance_found s aId bId a b hact haNe ha hab hb]
  rw [set_active_instance_found _ bId aId b { a with view_params := some s.view_params }
    rfl hbNe hb' (Ne.symm hab) ha']
  refine ⟨rfl, rfl, ?_⟩
  simp [hpa]

/-- Witness for C5's amended statement at `mC5`. -/
theorem C5_witness :
    mC5.active_instance_id = some "a" ∧
    (set_active_instance "b" mC5).2 = false ∧
    (set_active_instance "a" (set_active_instance "b" mC5).1).2 = false ∧
    (set_active_instance "a" (set_active_instance "b" mC5).1).1.view_params =
      { mC5.view_params with
        selected_frequencies := [], selected_phi := [], selected_theta := [] } :=
  ⟨rfl,
    (C5_roundtrip_clears_selections mC5 "a" "b" instA instB p0 rfl (by decide) (by decide)
      (by decide) rfl rfl rfl).1,
    (C5_roundtrip_clears_selections mC5 "a" "b" instA instB p0 rfl (by decide) (by decide)
      (by decide) rfl rfl rfl).2.1,
    (C5_roundtrip_clears_selections mC5 "a" "b" instA instB p0 rfl (by decide) (by decide)
      (by decide) rfl rfl rfl).2.2⟩

/-! ## Sorting and intersection lemmas -/

theorem insertSortedBy_perm {α : Type} (le : α → α → Bool) (x : α) (l : List α) :
    List.Perm (insertSortedBy le x l) (x :: l) := by
  induction l with
  | nil => exact List.Perm.refl _
  | cons y ys ih =>
    unfold insertSortedBy
    by_cases h : le x y
    · simp [h]
    · simp only [h, if_false, Bool.false_eq_true]
      exact (ih.cons y).trans (List.Perm.swap x y ys)

theorem sortBy_perm {α : Type} (le : α → α → Bool) (l : List α) :
    List.Perm (sortBy le l) l := by
  induction l with
  | nil => exact List.Perm.refl _
  | cons a l ih => exact (insertSortedBy_perm le a (sortBy le l)).trans (ih.cons a)

theorem dedup_toFinset {α : Type} [DecidableEq α] (l : List α) :
    l.dedup.toFinset = l.toFinset := by
  ext x
  simp

theorem interL_toFinset (l1 l2 : List ℚ) :
    (interL l1 l2).toFinset = l1.toFinset ∩ l2.toFinset := by
  ext x
  simp [interL]

theorem foldl_interL_toFinset (qs : List (List ℚ)) (init : List ℚ) :
    (qs.foldl interL init).toFinset =
      qs.foldl (fun s l => s ∩ l.toFinset) init.toFinset := by
  induction qs generalizing init with
  | nil => rfl
  | cons l ls ih => simp [List.foldl_cons, ih, interL_toFinset]

theorem foldl_interL_nodup (qs : List (List ℚ)) (init : List ℚ) (h : init.Nodup) :
    (qs.foldl interL init).Nodup := by
  induction qs generalizing init with
  | nil => exact h
  | cons l ls ih => exact ih _ (h.filter _)

/-! ## Claim C7 -/

/-- C7: `get_comparison_compatibility` reports `compatible = true` iff, over
the active pattern together with all comparison patterns, every pattern's
frequency count equals the size of the intersection of all frequency sets and
every pattern's phi-angle count equals the size of the intersection of all
phi-angle sets; and whenever the comparison set is empty it returns
`compatible = false` with empty `common_frequencies`, empty `common_phi` and
`num_comparison = 0`. -/
theorem C7_compatibility_exact_sampling {P : Type} (freqs phis : P → List ℚ)
    (s : DataModel P) :
    (get_comparison_instances s = [] →
      get_comparison_compatibility freqs phis s =
        some { compatible := false, common_frequencies := [], common_phi := [],
               num_comparison := 0 }) ∧
    (∀ (a : Instance P) (pa : P) (pats : List P) (r : CompatResult),
      get_active_instance s = some a → a.pattern = some pa →
      ((get_comparison_instances s).map (fun c => c.pattern)).mapM id = some pats →
      pats ≠ [] →
      get_comparison_compatibility freqs phis s = some r →
      r.common_frequencies.length =
        ((pats.map (fun p => (freqs p).toFinset)).foldl (· ∩ ·) (freqs pa).toFinset).card ∧
      r.common_phi.length =
        ((pats.map (fun p => (phis p).toFinset)).foldl (· ∩ ·) (phis pa).toFinset).card ∧
      r.num_comparison = (get_comparison_instances s).length ∧
      (r.compatible = true ↔
        ∀ p ∈ pa :: pats,
          (freqs p).length = r.common_frequencies.length ∧
          (phis p).length = r.common_phi.length)) := by
  constructor
  · intro h
    simp [get_comparison_compatibility, h]
  · intro a pa pats r ha hpa hpats hne hr
    cases hc : get_comparison_instances s with
    | nil =>
      rw [hc] at hpats
      simp only [List.map_nil, List.mapM_nil, Option.pure_def, Option.some.injEq] at hpats
      exact absurd hpats.symm hne
    | cons c0 cs =>
      rw [hc] at hpats
      rw [get_comparison_compatibility, hc] at hr
      simp only [ha, Option.isNone_some, List.isEmpty_cons, Bool.false_or,
        Bool.or_self, if_false, Bool.false_eq_true] at hr
      rw [hpa] at hr
      simp only [List.mapM_cons, hpats, Option.pure_def, Option.bind_eq_bind,
        Option.some_bind, id_eq] at hr
      cases pats with
      | nil => exact absurd rfl hne
      | cons q qs =>
        simp only [Option.some.injEq] at hr
        subst hr
        refine ⟨?_, ?_, rfl, ?_⟩
        · rw [(sortBy_perm _ _).length_eq,
            ← List.toFinset_card_of_nodup (foldl_interL_nodup _ _ ((freqs pa).nodup_dedup)),
            foldl_interL_toFinset]
          simp [List.foldl_map, interL_toFinset, dedup_toFinset]
        · rw [(sortBy_perm _ _).length_eq,
            ← List.toFinset_card_of_nodup (foldl_interL_nodup _ _ ((phis pa).nodup_dedup)),
            foldl_interL_toFinset]
          simp [List.foldl_map, interL_toFinset, dedup_toFinset]
        simp only [Bool.and_eq_true, decide_eq_true_eq, List.all_eq_true]
        constructor
        · rintro ⟨⟨⟨h1, h2⟩, h3⟩, h4⟩ p hp
          exact ⟨(h3 p hp).symm, (h4 p hp).symm⟩
        · intro h
          exact ⟨⟨⟨(h pa (List.mem_cons_self pa _)).1.symm,
            (h pa (List.mem_cons_self pa _)).2.symm⟩,
            fun p hp => (h p hp).1.symm⟩, fun p hp => (h p hp).2.symm⟩

/-- Witness for C7 at `mC7`: active and comparison share the identical
sampling `[1, 2]` × `[0, 90]`, so the report is compatible. -/
theorem C7_witness :
    get_active_instance mC7 = some instC7a ∧
    (({ compatible := true, common_frequencies := [1, 2], common_phi := [0, 90],
        num_comparison := 1 } : CompatResult).compatible = true ↔
      ∀ p ∈ (([1, 2], [0, 90]) : FreqPhiPattern) :: [(([1, 2], [0, 90]) : FreqPhiPattern)],
        (fpFreqs p).length = ([1, 2] : List ℚ).length ∧
        (fpPhis p).length = ([0, 90] : List ℚ).length) :=
  ⟨rfl,
    ((C7_compatibility_exact_sampling fpFreqs fpPhis mC7).2 instC7a ([1, 2], [0, 90])
      [([1, 2], [0, 90])]
      { compatible := true, common_frequencies := [1, 2], common_phi := [0, 90],
        num_comparison := 1 }
      rfl rfl rfl (List.cons_ne_nil _ _) rfl).2.2.2⟩

/-! ## Claim C8 -/

theorem linspace_length (a b : ℚ) (n : ℕ) : (linspace a b n).length = n := by
  by_cases h0 : n = 0
  · simp [linspace, h0]
  by_cases h1 : n = 1
  · simp [linspace, h0, h1]
  · simp [linspace, h0, h1]

theorem linspace_getD (a b : ℚ) (n : ℕ) (h : 2 ≤ n) (i : ℕ) (hi : i < n) :
    (linspace a b n).getD i 0 = a + (b - a) * i / ((n : ℚ) - 1) := by
  have h0 : ¬n = 0 := by omega
  have h1 : ¬n = 1 := by omega
  rw [linspace, if_neg h0, if_neg h1, List.getD_eq_getElem?_getD, List.getElem?_map,
    List.getElem?_range hi]
  simp

theorem linspace_first (a b : ℚ) (n : ℕ) (h : 2 ≤ n) : (linspace a b n).getD 0 0 = a := by
  rw [linspace_getD a b n h 0 (by omega)]
  simp

theorem linspace_last (a b : ℚ) (n : ℕ) (h : 2 ≤ n) :
    (linspace a b n).getD (n - 1) 0 = b := by
  rw [linspace_getD a b n h (n - 1) (by omega)]
  have hcast : ((n - 1 : ℕ) : ℚ) = (n : ℚ) - 1 := by
    push_cast [Nat.cast_sub (by omega : 1 ≤ n)]
    ring
  have hne : (n : ℚ) - 1 ≠ 0 := by
    have : (2 : ℚ) ≤ (n : ℚ) := by exact_mod_cast h
    intro hc
    linarith
  rw [hcast, mul_div_assoc, div_self hne]
  ring

theorem linspace_step (a b : ℚ) (n : ℕ) (h : 2 ≤ n) (i : ℕ) (hi : i + 1 < n) :
    (linspace a b n).getD (i + 1) 0 - (linspace a b n).getD i 0 =
      (b - a) / ((n : ℚ) - 1) := by
  have hne : (n : ℚ) - 1 ≠ 0 := by
    have : (2 : ℚ) ≤ (n : ℚ) := by exact_mod_cast h
    intro hc
    linarith
  rw [linspace_getD a b n h (i + 1) hi, linspace_getD a b n h i (by omega)]
  push_cast
  field_simp
  ring

theorem getD_map_of_lt {α β : Type} (f : α → β) (l : List α) (i : ℕ) (h : i < l.length)
    (d : β) (dl : α) : (l.map f).getD i d = f (l.getD i dl) := by
  rw [List.getD_eq_getElem?_getD, List.getElem?_map, List.getElem?_eq_getElem h,
    List.getD_eq_getElem?_getD, List.getElem?_eq_getElem h]
  simp

theorem meshgrid_fst_entry (xs ys : List ℚ) (i j : ℕ) (hi : i < xs.length)
    (hj : j < ys.length) :
    ((meshgrid_ij xs ys).1.getD i []).getD j 0 = xs.getD i 0 := by
  show ((xs.map (fun x => ys.map (fun _ => x))).getD i []).getD j 0 = xs.getD i 0
  rw [getD_map_of_lt _ xs i hi [] 0, getD_map_of_lt _ ys j hj 0 0]

theorem meshgrid_snd_entry (xs ys : List ℚ) (i j : ℕ) (hi : i < xs.length)
    (_hj : j < ys.length) :
    ((meshgrid_ij xs ys).2.getD i []).getD j 0 = ys.getD j 0 := by
  show ((xs.map (fun _ => ys)).getD i []).getD j 0 = ys.getD j 0
  rw [getD_map_of_lt _ xs i hi [] 0]

theorem meshgrid_shape (xs ys : List ℚ) :
    (meshgrid_ij xs ys).1.length = xs.length ∧
    (∀ row ∈ (meshgrid_ij xs ys).1, row.length = ys.length) := by
  constructor
  · simp [meshgrid_ij]
  · intro row hrow
    simp only [meshgrid_ij, List.mem_map] at hrow
    obtain ⟨x, _, hx⟩ := hrow
    rw [← hx]
    simp

theorem reshape_shape {α : Type} (flat : List α) (n m : ℕ) (h : flat.length = n * m) :
    (reshape flat n m).length = n ∧ ∀ r ∈ reshape flat n m, r.length = m := by
  induction n generalizing flat with
  | zero => simp [reshape]
  | succ k ih =>
    have hdrop : (flat.drop m).length = k * m := by
      rw [List.length_drop, h]
      ring_nf
      omega
    obtain ⟨ihl, ihr⟩ := ih (flat.drop m) hdrop
    refine ⟨by simp [reshape, ihl], ?_⟩
    intro r hr
    rw [reshape] at hr
    rcases List.mem_cons.mp hr with h1 | h2
    · rw [h1, List.length_take, h]
      have : m ≤ (k + 1) * m := by nlinarith
      omega
    · exact ihr r h2

/-- C8: the spherical near-field grid spans theta 0..180 and phi 0..360
degrees, each linearly spaced with the requested point counts, combined with
outer-product `'ij'` indexing (first axis theta, second phi), so the grid has
shape `(theta_points, phi_points)`; reshaping a flat evaluator result for
`theta_points = 91, phi_points = 181` yields shape `(91, 181)`, and for a
planar grid with `x_points = 51, y_points = 61` yields shape `(51, 61)`. -/
theorem C8_nearfield_grid_construction (radius degToRad xe ye zd : ℚ) (tp pp : ℕ)
    (h2 : 2 ≤ tp) (h2' : 2 ≤ pp) (flatS flatP : List ℚ)
    (hS : flatS.length = 91 * 181) (hP : flatP.length = 51 * 61) :
    ((build_spherical_grid radius tp pp degToRad).theta_deg.length = tp ∧
      (build_spherical_grid radius tp pp degToRad).theta_deg.getD 0 0 = 0 ∧
      (build_spherical_grid radius tp pp degToRad).theta_deg.getD (tp - 1) 0 = 180 ∧
      (∀ i, i + 1 < tp →
        (build_spherical_grid radius tp pp degToRad).theta_deg.getD (i + 1) 0 -
          (build_spherical_grid radius tp pp degToRad).theta_deg.getD i 0 =
          180 / ((tp : ℚ) - 1)) ∧
      (build_spherical_grid radius tp pp degToRad).phi_deg.length = pp ∧
      (build_spherical_grid radius tp pp degToRad).phi_deg.getD 0 0 = 0 ∧
      (build_spherical_grid radius tp pp degToRad).phi_deg.getD (pp - 1) 0 = 360 ∧
      (∀ j, j + 1 < pp →
        (build_spherical_grid radius tp pp degToRad).phi_deg.getD (j + 1) 0 -
          (build_spherical_grid radius tp pp degToRad).phi_deg.getD j 0 =
          360 / ((pp : ℚ) - 1))) ∧
    ((∀ i j, i < tp → j < pp →
        ((build_spherical_grid radius tp pp degToRad).THETA.getD i []).getD j 0 =
          (build_spherical_grid radius tp pp degToRad).theta_rad.getD i 0 ∧
        ((build_spherical_grid radius tp pp degToRad).PHI.getD i []).getD j 0 =
          (build_spherical_grid radius tp pp degToRad).phi_rad.getD j 0) ∧
      (build_spherical_grid radius tp pp degToRad).THETA.length = tp ∧
      (∀ row ∈ (build_spherical_grid radius tp pp degToRad).THETA, row.length = pp)) ∧
    (((reshape flatS 91 181).length = 91 ∧ ∀ r ∈ reshape flatS 91 181, r.length = 181) ∧
      ((reshape flatP 51 61).length = 51 ∧ ∀ r ∈ reshape flatP 51 61, r.length = 61)) ∧
    ((build_planar_grid xe ye zd 51 61).X.length = 51 ∧
      ∀ row ∈ (build_planar_grid xe ye zd 51 61).X, row.length = 61) := by
  have hθlen : (linspace (0 : ℚ) 180 tp).length = tp := linspace_length 0 180 tp
  have hφlen : (linspace (0 : ℚ) 360 pp).length = pp := linspace_length 0 360 pp
  have hθr : ((linspace (0 : ℚ) 180 tp).map (· * degToRad)).length = tp := by
    simp [hθlen]
  have hφr : ((linspace (0 : ℚ) 360 pp).map (· * degToRad)).length = pp := by
    simp [hφlen]
  refine ⟨⟨?_, ?_, ?_, ?_, ?_, ?_, ?_, ?_⟩, ⟨?_, ?_, ?_⟩, ⟨?_, ?_⟩, ?_⟩
  · exact hθlen
  · exact linspace_first 0 180 tp h2
  · exact linspace_last 0 180 tp h2
  · intro i hi
    simpa using linspace_step 0 180 tp h2 i hi
  · exact hφlen
  · exact linspace_first 0 360 pp h2'
  · exact linspace_last 0 360 pp h2'
  · intro j hj
    simpa using linspace_step 0 360 pp h2' j hj
  · intro i j hi hj
    exact ⟨meshgrid_fst_entry _ _ i j (by rw [hθr]; exact hi) (by rw [hφr]; exact hj),
      meshgrid_snd_entry _ _ i j (by rw [hθr]; exact hi) (by rw [hφr]; exact hj)⟩
  · show (meshgrid_ij _ _).1.length = tp
    rw [(meshgrid_shape _ _).1, hθr]
  · intro row hrow
    rw [(meshgrid_shape _ _).2 row hrow, hφr]
  · exact reshape_shape flatS 91 181 hS
  · exact reshape_shape flatP 51 61 hP
  · constructor
    · show (meshgrid_ij _ _).1.length = 51
      rw [(meshgrid_shape _ _).1, linspace_length]
    · intro row hrow
      rw [(meshgrid_shape _ _).2 row hrow, linspace_length]

/-- Witness for C8 at the claim's concrete sizes. -/
theorem C8_witness :
    ((2 ≤ 91 ∧ 2 ≤ 181) ∧
      (List.replicate (91 * 181) (0 : ℚ)).length = 91 * 181 ∧
      (List.replicate (51 * 61) (0 : ℚ)).length = 51 * 61) ∧
    (build_spherical_grid 1 91 181 1).theta_deg.length = 91 ∧
    (reshape (List.replicate (91 * 181) (0 : ℚ)) 91 181).length = 91 ∧
    (reshape (List.replicate (51 * 61) (0 : ℚ)) 51 61).length = 51 :=
  ⟨⟨⟨by decide, by decide⟩, List.length_replicate _ _, List.length_replicate _ _⟩,
    (C8_nearfield_grid_construction 1 1 1 1 1 91 181 (by decide) (by decide)
      (List.replicate (91 * 181) 0) (List.replicate (51 * 61) 0)
      (List.length_replicate _ _) (List.length_replicate _ _)).1.1,
    (C8_nearfield_grid_construction 1 1 1 1 1 91 181 (by decide) (by decide)
      (List.replicate (91 * 181) 0) (List.replicate (51 * 61) 0)
      (List.length_replicate _ _) (List.length_replicate _ _)).2.2.1.1.1,
    (C8_nearfield_grid_construction 1 1 1 1 1 91 181 (by decide) (by decide)
      (List.replicate (91 * 181) 0) (List.replicate (51 * 61) 0)
      (List.length_replicate _ _) (List.length_replicate _ _)).2.2.1.2.1⟩

/-! ## Claim C9 -/

theorem map_toFinset {α β : Type} [DecidableEq α] [DecidableEq β] (f : α → β) (l : List α) :
    (l.map f).toFinset = l.toFinset.image f := by
  induction l with
  | nil => rfl
  | cons a l ih => simp [ih]

theorem modePower_nonneg (swe : SWEc) (nm : ℤ × ℤ) : 0 ≤ modePower swe nm := by
  unfold modePower Cplx.normSq
  positivity

theorem allModes_nodup (swe : SWEc) : (allModes swe).Nodup := List.nodup_dedup _

/-- The list-built `power_per_n` as a `Finset` sum over the mode fiber. -/
theorem power_per_n_eq_finset (swe : SWEc) (n : ℤ) :
    power_per_n swe n =
      ∑ nm in (allModes swe).toFinset.filter (fun nm => nm.1 = n), modePower swe nm := by
  unfold power_per_n
  rw [← List.sum_toFinset _ (((allModes_nodup swe).filter _))]
  congr 1
  ext nm
  simp

/-- The code's `total_power` (sum of the per-degree dict values) equals the
sum of all mode powers. -/
theorem total_power_eq_mode_sum (swe : SWEc) :
    total_power swe = ∑ nm in (allModes swe).toFinset, modePower swe nm := by
  unfold total_power powersN nValues nSupport
  rw [((sortBy_perm (fun a b => decide (a ≤ b))
    (((allModes swe).map Prod.fst).dedup)).map (power_per_n swe)).sum_eq]
  rw [← List.sum_toFinset _ (List.nodup_dedup _)]
  rw [dedup_toFinset, map_toFinset]
  rw [show ∀ g : ℤ → ℚ, ((allModes swe).toFinset.image Prod.fst).sum g =
      ∑ y in (allModes swe).toFinset.image Prod.fst, g y from fun g => rfl]
  rw [← Finset.sum_fiberwise_of_maps_to
    (fun nm hnm => Finset.mem_image_of_mem Prod.fst hnm) (modePower swe)]
  refine Finset.sum_congr rfl ?_
  intro n _
  exact power_per_n_eq_finset swe n

/-- C9: if the total power is zero (in particular for empty coefficient maps),
every `power_per_n` and `power_per_absm` aggregate is zero and the
cumulative-power series is all zeros (the guarded branch — no division is
performed); for empty maps the aggregates and the series are empty. -/
theorem C9_zero_power_swe_summary (swe : SWEc) (h : total_power swe = 0) :
    (∀ n : ℤ, power_per_n swe n = 0) ∧
    (∀ k : ℤ, power_per_absm swe k = 0) ∧
    cumulativeSeries swe = List.replicate (powersN swe).length 0 ∧
    (swe.Q1_coeffs = [] → swe.Q2_coeffs = [] →
      nSupport swe = [] ∧ mSupport swe = [] ∧ cumulativeSeries swe = []) := by
  have hmode : ∀ nm ∈ (allModes swe).toFinset, modePower swe nm = 0 := by
    rw [total_power_eq_mode_sum] at h
    exact (Finset.sum_eq_zero_iff_of_nonneg
      (fun nm _ => modePower_nonneg swe nm)).mp h
  have hmode' : ∀ nm ∈ allModes swe, modePower swe nm = 0 := by
    intro nm hnm
    exact hmode nm (List.mem_toFinset.mpr hnm)
  refine ⟨?_, ?_, ?_, ?_⟩
  · intro n
    unfold power_per_n
    refine List.sum_eq_zero ?_
    intro x hx
    obtain ⟨nm, hnm, hval⟩ := List.mem_map.mp hx
    rw [← hval]
    exact hmode' nm (List.mem_of_mem_filter hnm)
  · intro k
    unfold power_per_absm
    refine List.sum_eq_zero ?_
    intro x hx
    obtain ⟨nm, hnm, hval⟩ := List.mem_map.mp hx
    rw [← hval]
    exact hmode' nm (List.mem_of_mem_filter hnm)
  · unfold cumulativeSeries
    rw [h]
    simp
  · intro h1 h2
    obtain ⟨q1, q2⟩ := swe
    simp only at h1 h2
    subst h1
    subst h2
    exact ⟨rfl, rfl, rfl⟩

/-- Witness for C9 at the empty coefficient set. -/
theorem C9_witness :
    total_power sweEmpty = 0 ∧
    (power_per_n sweEmpty 1 = 0 ∧ cumulativeSeries sweEmpty = []) :=
  ⟨rfl,
    (C9_zero_power_swe_summary sweEmpty rfl).1 1,
    ((C9_zero_power_swe_summary sweEmpty rfl).2.2.2 rfl rfl).2.2⟩

end APV
